import Mathlib

/-!
Shallow embedding of the retail sales dashboard application (`app.py`).

The application is a script re-executed on every interaction.  We embed its
pure core: the auth helpers (`hash_password`, `verify_user`, `register_user`),
the sales helpers (`save_to_db`, `load_data`, `clear_db`), the feedback
helpers (`save_feedback`, the submit-feedback handler, the admin analytics),
the page router, and the dashboard filtering/aggregation pipeline.

Persistent SQL tables are embedded as Lean lists in insertion order:
  * users    : `List (String × String)`  -- (username, password hash); the
               table has exactly these two columns, `username` is the key.
  * sales    : `List (List String)`      -- rows appended verbatim by upload.
  * feedback : `List (String × String)`  -- (username, message), ordered by
               `submitted_at`, i.e. insertion order.

`hashlib.sha256(...).hexdigest()` is embedded as a full executable SHA-256
over the UTF-8 bytes of the password.  `pd.to_datetime` (an external library
call) is a parameter `parse : String → Option Date` of the ingestion
function; a concrete ISO-date parser `parseDateISO` instantiates it.
-/

/-- Bytes and 32-bit words are `Nat` reduced mod `2 ^ 32` where overflow matters. -/
def w32 : Nat := 4294967296

/-- Right rotation of a 32-bit word. -/
def rotr (n x : Nat) : Nat := ((x >>> n) ||| (x <<< (32 - n))) % w32

/-- The first 64 primes, from which FIPS 180-4 derives the SHA-256 constants. -/
def primes64 : List Nat :=
  [2, 3, 5, 7, 11, 13, 17, 19, 23, 29, 31, 37, 41, 43, 47, 53,
   59, 61, 67, 71, 73, 79, 83, 89, 97, 101, 103, 107, 109, 113, 127, 131,
   137, 139, 149, 151, 157, 163, 167, 173, 179, 181, 191, 193, 197, 199, 211, 223,
   227, 229, 233, 239, 241, 251, 257, 263, 269, 271, 277, 281, 283, 293, 307, 311]

/-- Fueled binary search for the integer cube root, on the invariant
`lo ^ 3 ≤ n < hi ^ 3`. -/
def icbrtGo (n : Nat) : Nat → Nat → Nat → Nat
  | 0, lo, _ => lo
  | fuel + 1, lo, hi =>
    let mid := (lo + hi) / 2
    if mid = lo then lo
    else if mid ^ 3 ≤ n then icbrtGo n fuel mid hi
    else icbrtGo n fuel lo mid

/-- Integer cube root. -/
def icbrt (n : Nat) : Nat :=
  icbrtGo n 200 0 (n + 1)

/-- SHA-256 round constants: the first 32 bits of the fractional parts of
the cube roots of the first 64 primes. -/
def shaK : List Nat :=
  primes64.map (fun p => icbrt (p * 2 ^ 96) % w32)

/-- SHA-256 initial hash state: the first 32 bits of the fractional parts of
the square roots of the first 8 primes. -/
def shaH0 : List Nat :=
  (primes64.take 8).map (fun p => Nat.sqrt (p * 2 ^ 64) % w32)

/-- Big-endian 8-byte encoding of a natural number. -/
def bigEndian8 (n : Nat) : List Nat :=
  (List.range 8).map (fun i => (n >>> (8 * (7 - i))) % 256)

/-- SHA-256 padding: append `0x80`, zeros, then the 64-bit big-endian bit length,
so the total length is a multiple of 64 bytes. -/
def sha256pad (msg : List Nat) : List Nat :=
  let L := msg.length
  let z := (119 - L % 64) % 64
  msg ++ [128] ++ List.replicate z 0 ++ bigEndian8 (8 * L)

/-- Split a byte list into chunks of 64 bytes. -/
def chunks64 (l : List Nat) : List (List Nat) :=
  if h : l = [] then []
  else
    have : (l.drop 64).length < l.length := by
      rw [List.length_drop]
      have hl : 0 < l.length := List.length_pos.mpr h
      omega
    l.take 64 :: chunks64 (l.drop 64)
termination_by l.length

/-- A 64-byte chunk as 16 big-endian 32-bit words. -/
def toWords (chunk : List Nat) : List Nat :=
  (List.range 16).map (fun i =>
    (chunk.getD (4 * i) 0) * 16777216 + (chunk.getD (4 * i + 1) 0) * 65536 +
    (chunk.getD (4 * i + 2) 0) * 256 + chunk.getD (4 * i + 3) 0)

/-- Message-schedule extension of the 16 words to 64 words. -/
def schedule (ws : List Nat) : List Nat :=
  (List.range 48).foldl
    (fun a _ =>
      let n := a.length
      let s0 := rotr 7 (a.getD (n - 15) 0) ^^^ rotr 18 (a.getD (n - 15) 0) ^^^
                ((a.getD (n - 15) 0) >>> 3)
      let s1 := rotr 17 (a.getD (n - 2) 0) ^^^ rotr 19 (a.getD (n - 2) 0) ^^^
                ((a.getD (n - 2) 0) >>> 10)
      a ++ [(a.getD (n - 16) 0 + s0 + a.getD (n - 7) 0 + s1) % w32])
    ws

/-- One SHA-256 compression round. -/
def shaRound (st : List Nat) (kw : Nat × Nat) : List Nat :=
  let a := st.getD 0 0
  let b := st.getD 1 0
  let c := st.getD 2 0
  let d := st.getD 3 0
  let e := st.getD 4 0
  let f := st.getD 5 0
  let g := st.getD 6 0
  let h := st.getD 7 0
  let S1 := rotr 6 e ^^^ rotr 11 e ^^^ rotr 25 e
  let ch := (e &&& f) ^^^ ((w32 - 1 - e) &&& g)
  let temp1 := (h + S1 + ch + kw.1 + kw.2) % w32
  let S0 := rotr 2 a ^^^ rotr 13 a ^^^ rotr 22 a
  let maj := (a &&& b) ^^^ (a &&& c) ^^^ (b &&& c)
  let temp2 := (S0 + maj) % w32
  [(temp1 + temp2) % w32, a, b, c, (d + temp1) % w32, e, f, g]

/-- Process one 64-byte chunk, updating the 8-word hash state. -/
def shaChunk (hs : List Nat) (chunk : List Nat) : List Nat :=
  let ws := schedule (toWords chunk)
  let st := (shaK.zip ws).foldl shaRound hs
  (List.range 8).map (fun i => (hs.getD i 0 + st.getD i 0) % w32)

/-- The lowercase hex digit with value `n`. -/
def hexDigit (n : Nat) : Char :=
  if n < 10 then Char.ofNat (48 + n) else Char.ofNat (87 + n)

/-- A 32-bit word as 8 lowercase hex characters. -/
def wordToHex (wd : Nat) : List Char :=
  (List.range 8).map (fun i => hexDigit ((wd >>> (4 * (7 - i))) % 16))

/-- SHA-256 of a byte list, as the lowercase hex digest string. -/
def sha256hex (msg : List Nat) : String :=
  let hs := (chunks64 (sha256pad msg)).foldl shaChunk shaH0
  String.mk ((hs.map wordToHex).foldr (· ++ ·) [])

/-- UTF-8 encoding of a Unicode code point. -/
def utf8Bytes (c : Nat) : List Nat :=
  if c < 128 then [c]
  else if c < 2048 then [192 ||| (c >>> 6), 128 ||| (c % 64)]
  else if c < 65536 then
    [224 ||| (c >>> 12), 128 ||| ((c >>> 6) % 64), 128 ||| (c % 64)]
  else
    [240 ||| (c >>> 18), 128 ||| ((c >>> 12) % 64), 128 ||| ((c >>> 6) % 64),
     128 ||| (c % 64)]

/-- UTF-8 bytes of a string (`password.encode()` in Python). -/
def strBytes (s : String) : List Nat :=
  s.toList.foldr (fun ch acc => utf8Bytes ch.toNat ++ acc) []

/-- `hash_password(password)`: `hashlib.sha256(password.encode()).hexdigest()`. -/
def hash_password (password : String) : String :=
  sha256hex (strBytes password)

/-! ## Credential Store and auth helpers

The `users` table is `(username TEXT PRIMARY KEY, password TEXT NOT NULL)`;
embedded as a list of `(username, password-hash)` pairs in insertion order.
`SELECT * FROM users WHERE username = ?` is `find?` on the username (the
primary key guarantees at most one match; `find?` takes the first). -/

/-- The stored password hash for `u`, if `u` is registered:
`pd.read_sql("SELECT * FROM users WHERE username = ?")`, then the
`password` field of row 0 if the result is nonempty. -/
def lookupUser (users : List (String × String)) (u : String) : Option String :=
  (users.find? (fun e => e.1 == u)).map (·.2)

/-- `verify_user(username, password)`:
`not df.empty and df['password'][0] == hash_password(password)`. -/
def verify_user (users : List (String × String)) (username password : String) : Bool :=
  match lookupUser users username with
  | none => false
  | some stored => stored == hash_password password

/-- `register_user(username, password)`: returns `False` (store unchanged) when
the username is already present, else inserts `(username, hash_password password)`
and returns `True`.  Result is (return value, users table afterwards). -/
def register_user (users : List (String × String)) (username password : String) :
    Bool × List (String × String) :=
  match lookupUser users username with
  | some _ => (false, users)
  | none => (true, users ++ [(username, hash_password password)])

/-! ## Feedback Store

`feedback(username, message, submitted_at DEFAULT CURRENT_TIMESTAMP)`;
embedded as `(username, message)` pairs in insertion order (`submitted_at`
increases with insertion). -/

/-- `save_feedback(username, message)`: INSERT one row. -/
def save_feedback (feedback : List (String × String)) (username message : String) :
    List (String × String) :=
  feedback ++ [(username, message)]

/-- Python `str.strip()`: drop leading and trailing whitespace. -/
def pyStrip (s : String) : String :=
  String.mk
    (((s.toList.dropWhile Char.isWhitespace).reverse.dropWhile Char.isWhitespace).reverse)

/-- Python `str.lower()`: lower-case every character. -/
def pyLower (s : String) : String :=
  String.mk (s.toList.map Char.toLower)

/-- The message built by the Submit Feedback handler (`comment.strip() or
the literal No comment` when the stripped comment is empty). -/
def feedbackMessage (rating : Nat) (comment : String) : String :=
  "Rating: " ++ toString rating ++ " stars | Comment: " ++
    (if pyStrip comment = "" then "No comment" else pyStrip comment)

/-- The Submit Feedback button handler: warns (store untouched) when the
in-progress rating is 0, else saves the formatted message for the session user. -/
def submitFeedback (feedback : List (String × String)) (user : String)
    (rating : Nat) (comment : String) : List (String × String) :=
  if rating == 0 then feedback
  else save_feedback feedback user (feedbackMessage rating comment)

/-- `SELECT * FROM feedback ORDER BY submitted_at DESC`: insertion order reversed. -/
def listAll (feedback : List (String × String)) : List (String × String) :=
  feedback.reverse

/-- Model of the regex extraction `str.extract(r'Rating:\s*(\d+)')` at one
position: match the literal `Rating:`, skip whitespace, then read one or more
digits. -/
def matchRatingAt (cs : List Char) : Option Nat :=
  if cs.take 7 = "Rating:".toList then
    let ds := ((cs.drop 7).dropWhile Char.isWhitespace).takeWhile Char.isDigit
    if ds.isEmpty then none
    else some (ds.foldl (fun a c => 10 * a + (c.toNat - 48)) 0)
  else none

/-- Leftmost match of `Rating:\s*(\d+)`, as `re` does. -/
def findRating : List Char → Option Nat
  | [] => none
  | c :: cs =>
    match matchRatingAt (c :: cs) with
    | some n => some n
    | none => findRating cs

/-- `feedback_df['message'].str.extract(r'Rating:\s*(\d+)').astype(float)`
for one message: the extracted rating, `none` standing for NaN. -/
def extractRating (msg : String) : Option Nat :=
  findRating msg.toList

/-- The numeric ratings extracted from the feedback messages (NaN dropped,
as `mean` skips NaN). -/
def ratingsOf (feedback : List (String × String)) : List Nat :=
  feedback.filterMap (fun e => extractRating e.2)

/-- `feedback_df['rating'].mean()`: `none` when no rating was extracted. -/
def averageRating (feedback : List (String × String)) : Option ℚ :=
  let rs := ratingsOf feedback
  if rs.isEmpty then none
  else some ((rs.map (fun n => (n : ℚ))).sum / rs.length)

/-! ## Sales Record Store and ingestion

The `sales` table rows are appended verbatim from the uploaded table;
embedded as `List (List String)` (one list of cells per row).
`pd.to_datetime` is an external library call; `save_to_db` takes the date
parser as a parameter `parse`. -/

/-- An uploaded table: header row and data rows. -/
structure Table where
  columns : List String
  rows : List (List String)
deriving Repr, DecidableEq

/-- `df.columns.str.strip().str.lower()` applied to one column name. -/
def normalizeCol (c : String) : String :=
  pyLower (pyStrip c)

/-- The two ways `save_to_db` fails: the `st.error` at the missing-`date`
check, and the caught exception from `pd.to_datetime` on a bad date value. -/
inductive IngestError
  | missingColumn
  | badDate
deriving Repr, DecidableEq

/-- `save_to_db(df)` with the outcome kind made explicit: normalize column
names; fail if no `date` column; fail if any value of the (first) `date`
column is unparseable; else append all rows verbatim to the store.
`parse` embeds `pd.to_datetime` on a single cell. -/
def ingest {D : Type} (parse : String → Option D) (df : Table)
    (sales : List (List String)) : Except IngestError (List (List String)) :=
  match (df.columns.map normalizeCol).indexOf? "date" with
  | none => .error .missingColumn
  | some i =>
    if df.rows.all (fun r => (parse (r.getD i "")).isSome)
    then .ok (sales ++ df.rows)
    else .error .badDate

/-- `save_to_db(df)` as written: returns `False` on either failure (the
store is left unchanged), `True` on success. -/
def save_to_db {D : Type} (parse : String → Option D) (df : Table)
    (sales : List (List String)) : Bool × List (List String) :=
  match ingest parse df sales with
  | .ok s => (true, s)
  | .error _ => (false, sales)

/-- Days in a month of the proleptic Gregorian calendar. -/
def daysInMonth (y m : Nat) : Nat :=
  if m = 2 then
    if y % 4 = 0 ∧ (y % 100 ≠ 0 ∨ y % 400 = 0) then 29 else 28
  else if m = 4 ∨ m = 6 ∨ m = 9 ∨ m = 11 then 30
  else 31

/-- Split a character list at a separator character. -/
def splitOnChar (sep : Char) : List Char → List (List Char)
  | [] => [[]]
  | c :: cs =>
    let rest := splitOnChar sep cs
    if c = sep then [] :: rest
    else
      match rest with
      | [] => [[c]]
      | g :: gs => (c :: g) :: gs

/-- A nonempty all-digit character group as a number. -/
def digitsToNat? (cs : List Char) : Option Nat :=
  if cs ≠ [] ∧ cs.all Char.isDigit
  then some (cs.foldl (fun a c => 10 * a + (c.toNat - 48)) 0)
  else none

/-- A concrete calendar-date parser (ISO `YYYY-MM-DD`), instantiating the
external `pd.to_datetime` collaborator for witnesses. -/
def parseDateISO (s : String) : Option (Nat × Nat × Nat) :=
  match splitOnChar '-' s.toList with
  | [y, m, d] =>
    match digitsToNat? y, digitsToNat? m, digitsToNat? d with
    | some yn, some mn, some dn =>
      if 1 ≤ mn ∧ mn ≤ 12 ∧ 1 ≤ dn ∧ dn ≤ daysInMonth yn mn
      then some (yn, mn, dn) else none
    | _, _, _ => none
  | _ => none

/-! ## Whole-application state: the three databases -/

/-- The three SQLite databases (`sales.db`, `users.db`, `feedback.db`). -/
structure AppState where
  sales : List (List String)
  users : List (String × String)
  feedback : List (String × String)
deriving Repr, DecidableEq

/-- `clear_db()`: `DELETE FROM sales`. -/
def clear_db (s : AppState) : AppState :=
  { s with sales := [] }

/-- `load_data()`: `SELECT * FROM sales`, dates re-parsed by the external
library; every failure path (missing table, missing `date` column) returns
the empty DataFrame, and on the rows stored by `save_to_db` the date
re-parse succeeds, so the result is exactly the stored rows. -/
def load_data (s : AppState) : List (List String) :=
  s.sales

/-! ## Session / navigation controller

The script: when `st.session_state.auth` is false, only the login/register
sidebar is rendered and `st.stop()` ends the run; otherwise the sidebar
selectbox picks a page from `menu` and the `if/elif` chain dispatches. -/

/-- The sidebar menu. -/
def menu : List String :=
  ["Upload Data", "View Data", "Dashboard", "Feedback", "Predictions", "Admin Panel"]

/-- What one run of the script renders for the given page choice. -/
inductive PageView
  /-- Unauthenticated: login/register sidebar, then `st.stop()`. -/
  | loginScreen
  | uploadPage
  | viewPage
  | dashboardPage
  | feedbackPage
  | predictionsPage
  /-- Admin Panel for a non-`admin` user: the page renders the
  `⛔ You are not authorized` warning instead of the protected content. -/
  | adminDenied
  /-- Admin Panel protected content (feedback analytics, user list). -/
  | adminContent
  /-- No branch of the `if/elif` chain matched the choice. -/
  | nothing
deriving Repr, DecidableEq

/-- One top-to-bottom run of the script, as a function of the session state
(`auth`, `user`) and the selected menu entry. -/
def route (auth : Bool) (user choice : String) : PageView :=
  if !auth then .loginScreen
  else if choice == "Upload Data" then .uploadPage
  else if choice == "View Data" then .viewPage
  else if choice == "Dashboard" then .dashboardPage
  else if choice == "Feedback" then .feedbackPage
  else if choice == "Admin Panel" then
    if user != "admin" then .adminDenied else .adminContent
  else if choice == "Predictions" then .predictionsPage
  else .nothing

/-! ## Dashboard: filtering and aggregation

The Dashboard page consumes the loaded sales DataFrame through the columns
`date`, `product`, `region`, `units_sold`, `revenue`; embedded as a typed
row.  `date` is a day number (calendar dates are totally ordered); `revenue`
and `units_sold` are exact numbers (`ℚ`). -/

/-- One sales record as the Dashboard reads it. -/
structure SalesRow where
  date : Int
  product : String
  region : String
  units_sold : ℚ
  revenue : ℚ
deriving Repr, DecidableEq

/-- The Dashboard filter chain:
`data[(data['date'] >= start_date) & (data['date'] <= end_date)]`, then
`data[data['region'] == region]` unless region is `"All"`, then
`data[data['product'] == product]` unless product is `"All"`. -/
def dashboardFilter (startDate endDate : Int) (region product : String)
    (data : List SalesRow) : List SalesRow :=
  let d1 := data.filter (fun x => startDate ≤ x.date && x.date ≤ endDate)
  let d2 := if region != "All" then d1.filter (fun x => x.region == region) else d1
  if product != "All" then d2.filter (fun x => x.product == product) else d2

/-- `data['revenue'].sum()`. -/
def totalRevenue (data : List SalesRow) : ℚ :=
  (data.map (·.revenue)).sum

/-- `data['units_sold'].sum()`. -/
def totalUnits (data : List SalesRow) : ℚ :=
  (data.map (·.units_sold)).sum

/-- The two KPI metrics of the Dashboard. -/
def summarize (data : List SalesRow) : ℚ × ℚ :=
  (totalRevenue data, totalUnits data)

/-- The distinct regions appearing in the data (the pivot table's index). -/
def uniqueRegions (data : List SalesRow) : List String :=
  (data.map (·.region)).dedup

/-- The distinct products appearing in the data (the pivot table's columns). -/
def uniqueProducts (data : List SalesRow) : List String :=
  (data.map (·.product)).dedup

/-- One cell of
`data.pivot_table(values='revenue', index='region', columns='product',
aggfunc='sum', fill_value=0)`: the revenue sum over the rows with this
region and product; a region×product pair with no rows gives 0. -/
def pivotCell (data : List SalesRow) (r p : String) : ℚ :=
  totalRevenue (data.filter (fun x => x.region == r && x.product == p))

/-- The sum of the pivot table over all its cells. -/
def pivotTotal (data : List SalesRow) : ℚ :=
  ((uniqueRegions data).map (fun r =>
    ((uniqueProducts data).map (fun p => pivotCell data r p)).sum)).sum

/-! ## Claim theorems -/

/-- C1: `login(u, p)` (i.e. `verify_user`) succeeds if and only if `u` is
present in the Credential Store and the SHA-256 hash of `p` over its UTF-8
bytes equals the stored hash for `u`; in particular it fails for every
unregistered `u` (then no `h` satisfies the right-hand side). -/
theorem c1_login_iff (users : List (String × String)) (u p : String) :
    verify_user users u p = true ↔
      ∃ h, lookupUser users u = some h ∧ h = hash_password p := by
  unfold verify_user
  cases hm : lookupUser users u with
  | none => simp
  | some stored => simp [beq_iff_eq]

/-- Witness for C1: login succeeds on a registered user with the matching
password. -/
theorem c1_login_iff_witness :
    verify_user [("alice", hash_password "secret")] "alice" "secret" = true :=
  (c1_login_iff [("alice", hash_password "secret")] "alice" "secret").mpr
    ⟨hash_password "secret", rfl, rfl⟩

/-- C4: when `u` is already present in the Credential Store (case-sensitive
exact match), `register_user u p` returns `False` (UsernameTaken) and the
store is unchanged, so in particular its size is unchanged. -/
theorem c4_register_taken (users : List (String × String)) (u p : String)
    (h : (lookupUser users u).isSome = true) :
    register_user users u p = (false, users) ∧
    (register_user users u p).2.length = users.length := by
  unfold register_user
  cases hm : lookupUser users u with
  | none => rw [hm] at h; simp at h
  | some s => exact ⟨rfl, rfl⟩

/-- Witness for C4: a second registration of `alice` is rejected and leaves
the store as it was. -/
theorem c4_register_taken_witness :
    register_user [("alice", "h1")] "alice" "pw2" = (false, [("alice", "h1")]) :=
  (c4_register_taken [("alice", "h1")] "alice" "pw2" (by decide)).1

/-- C5 is false on the code: registering `Admin` succeeds and stores the
bare pair (username, hash) — the `users` table has no `role` column — and
although the lower-cased username equals `admin` (so the claim assigns the
record the role `admin`), the application's only role check
(`st.session_state.user != "admin"`, exact and case-sensitive) denies
`Admin` the Admin Panel content. -/
theorem c5_counterexample :
    (register_user [] "Admin" "pw").1 = true ∧
    (register_user [] "Admin" "pw").2 = [("Admin", hash_password "pw")] ∧
    pyLower "Admin" = "admin" ∧
    route true "Admin" "Admin Panel" = PageView.adminDenied :=
  ⟨rfl, rfl, by decide, by decide⟩

/-- C5 (amended): every successful `register_user username password` appends
exactly the record (username, SHA-256 hash of password) to the Credential
Store — no role is stored — and admin capability is decided at page access
by exact, case-sensitive comparison of the session username with `admin`. -/
theorem c5_amended (users : List (String × String)) (u p : String)
    (h : lookupUser users u = none) :
    register_user users u p = (true, users ++ [(u, hash_password p)]) ∧
    (route true u "Admin Panel" = PageView.adminContent ↔ u = "admin") := by
  constructor
  · unfold register_user
    rw [h]
  · have hroute : route true u "Admin Panel" =
        if (u != "admin") = true then PageView.adminDenied else PageView.adminContent := rfl
    rw [hroute]
    by_cases hu : u = "admin"
    · simp [hu]
    · simp [bne_iff_ne, hu]

/-- Witness for C5 (amended): registering a fresh user stores the bare
(username, hash) pair. -/
theorem c5_amended_witness :
    register_user [] "bob" "pw" = (true, [("bob", hash_password "pw")]) :=
  (c5_amended [] "bob" "pw" rfl).1

/-- C10: `clear_db` empties the sales table only — afterwards `load_data`
returns the empty table, while the Credential Store and the Feedback Store
are untouched. -/
theorem c10_clear_frame (s : AppState) :
    (clear_db s).sales = [] ∧ load_data (clear_db s) = [] ∧
    (clear_db s).users = s.users ∧ (clear_db s).feedback = s.feedback :=
  ⟨rfl, rfl, rfl, rfl⟩

/-- C3: when the uploaded table, after trimming whitespace and lower-casing
its column names, has no `date` column, ingestion fails with MissingColumn
and the Sales Record Store is unchanged (so its row count is unchanged). -/
theorem c3_missing_column {D : Type} (parse : String → Option D) (df : Table)
    (sales : List (List String))
    (h : "date" ∉ df.columns.map normalizeCol) :
    ingest parse df sales = Except.error IngestError.missingColumn ∧
    save_to_db parse df sales = (false, sales) ∧
    (save_to_db parse df sales).2.length = sales.length := by
  have hnone : List.indexOf? "date" (df.columns.map normalizeCol) = none := by
    rw [List.indexOf?_eq_none_iff]
    intro x hx
    simp only [beq_iff_eq]
    intro hxe
    exact h (hxe ▸ hx)
  refine ⟨?_, ?_, ?_⟩ <;> simp [ingest, save_to_db, hnone]

/-- Witness for C3: a table whose only column is `product`. -/
theorem c3_missing_column_witness :
    ingest parseDateISO ⟨["product"], [["w"]]⟩ [["r"]] =
      Except.error IngestError.missingColumn ∧
    save_to_db parseDateISO ⟨["product"], [["w"]]⟩ [["r"]] = (false, [["r"]]) :=
  ⟨(c3_missing_column parseDateISO ⟨["product"], [["w"]]⟩ [["r"]] (by decide)).1,
   (c3_missing_column parseDateISO ⟨["product"], [["w"]]⟩ [["r"]] (by decide)).2.1⟩

/-- C2: when the uploaded table has a `date` column (at index `i` after
normalization) containing at least one value the date parser rejects,
ingestion fails with BadDate and no row of the batch is appended: the store
afterwards is exactly the store before. -/
theorem c2_bad_date {D : Type} (parse : String → Option D) (df : Table)
    (sales : List (List String)) (i : Nat)
    (hi : List.indexOf? "date" (df.columns.map normalizeCol) = some i)
    (hbad : ∃ r ∈ df.rows, parse (r.getD i "") = none) :
    ingest parse df sales = Except.error IngestError.badDate ∧
    save_to_db parse df sales = (false, sales) := by
  have hall : df.rows.all (fun r => (parse (r.getD i "")).isSome) = false := by
    rw [List.all_eq_false]
    obtain ⟨r, hr, hnone⟩ := hbad
    exact ⟨r, hr, by rw [hnone]; simp⟩
  have hing : ingest parse df sales = Except.error IngestError.badDate := by
    unfold ingest
    rw [hi]
    show (if (df.rows.all fun r => (parse (r.getD i "")).isSome) = true
        then Except.ok (sales ++ df.rows) else Except.error IngestError.badDate) =
      Except.error IngestError.badDate
    rw [hall]
    simp
  exact ⟨hing, by unfold save_to_db; rw [hing]⟩

/-- A batch whose second row has an unparseable date. -/
def badDateTable : Table :=
  ⟨[" Date "], [["2024-06-01"], ["notadate"]]⟩

/-- Witness for C2: the batch with the bad date is rejected whole. -/
theorem c2_bad_date_witness :
    ingest parseDateISO badDateTable [["2024-05-31"]] =
      Except.error IngestError.badDate ∧
    save_to_db parseDateISO badDateTable [["2024-05-31"]] =
      (false, [["2024-05-31"]]) :=
  c2_bad_date parseDateISO badDateTable [["2024-05-31"]] 0 (by decide)
    ⟨["notadate"], by decide, by decide⟩

/-- C9: from an empty Feedback Store, after `alice` submits rating 5,
`listAll` holds exactly one entry, with username `alice` and extracted
rating 5, and the average rating equals 5. -/
theorem c9_feedback_scenario :
    listAll (submitFeedback [] "alice" 5 "") =
      [("alice", "Rating: 5 stars | Comment: No comment")] ∧
    (listAll (submitFeedback [] "alice" 5 "")).length = 1 ∧
    (∀ e ∈ listAll (submitFeedback [] "alice" 5 ""),
      e.1 = "alice" ∧ extractRating e.2 = some 5) ∧
    averageRating (submitFeedback [] "alice" 5 "") = some 5 := by
  refine ⟨by decide, by decide, by decide, ?_⟩
  have hr : ratingsOf (submitFeedback [] "alice" 5 "") = [5] := by decide
  simp [averageRating, hr]

/-- C6: every page is gated behind authentication (an unauthenticated run
always renders the login screen, whatever the selected page); the Admin
Panel's protected content is rendered only for the exact username `admin`
(whose lower-casing is `admin`, so only for a session whose role is admin);
and an authenticated non-`admin` selecting the Admin Panel gets the rendered
authorization-denied warning, not a failure. -/
theorem c6_page_gating (auth : Bool) (u c : String) (hc : c ∈ menu) :
    route false u c = PageView.loginScreen ∧
    (route auth u c ≠ PageView.loginScreen → auth = true) ∧
    (route auth u c = PageView.adminContent → u = "admin" ∧ pyLower u = "admin") ∧
    (auth = true → c = "Admin Panel" → u ≠ "admin" →
      route auth u c = PageView.adminDenied) := by
  refine ⟨rfl, ?_, ?_, ?_⟩
  · intro h
    cases auth
    · exact absurd rfl h
    · rfl
  · intro h
    cases auth
    · exact PageView.noConfusion h
    · fin_cases hc
      · exact PageView.noConfusion h
      · exact PageView.noConfusion h
      · exact PageView.noConfusion h
      · exact PageView.noConfusion h
      · exact PageView.noConfusion h
      · by_cases hu : u = "admin"
        · exact ⟨hu, by rw [hu]; decide⟩
        · have hb : (u != "admin") = true := bne_iff_ne.mpr hu
          have hroute : route true u "Admin Panel" =
              if (u != "admin") = true then PageView.adminDenied
              else PageView.adminContent := rfl
          rw [hroute, if_pos hb] at h
          exact PageView.noConfusion h
  · intro ha hc2 hu
    subst ha
    subst hc2
    have hb : (u != "admin") = true := bne_iff_ne.mpr hu
    have hroute : route true u "Admin Panel" =
        if (u != "admin") = true then PageView.adminDenied
        else PageView.adminContent := rfl
    rw [hroute, if_pos hb]

/-- Witness for C6: an unauthenticated run shows the login screen, and the
authenticated non-admin `bob` selecting the Admin Panel gets the denial. -/
theorem c6_page_gating_witness :
    route false "bob" "Dashboard" = PageView.loginScreen ∧
    route true "bob" "Admin Panel" = PageView.adminDenied :=
  ⟨(c6_page_gating true "bob" "Dashboard" (by decide)).1,
   (c6_page_gating true "bob" "Admin Panel" (by decide)).2.2.2 rfl rfl (by decide)⟩

/-- `totalRevenue` of a cons. -/
theorem totalRevenue_cons (a : SalesRow) (l : List SalesRow) :
    totalRevenue (a :: l) = a.revenue + totalRevenue l := by
  simp [totalRevenue]

/-- Sum of a pointwise sum of two maps. -/
theorem sum_map_add_distrib (R : List String) (f g : String → ℚ) :
    (R.map (fun r => f r + g r)).sum = (R.map f).sum + (R.map g).sum := by
  induction R with
  | nil => simp
  | cons a R ih => simp [ih]; ring

/-- An indicator sum over a list not containing the tag is zero. -/
theorem sum_indicator_not_mem (v : ℚ) (b : String) :
    ∀ R : List String, b ∉ R →
      (R.map (fun r => if b = r then v else 0)).sum = 0 := by
  intro R
  induction R with
  | nil => intro _; simp
  | cons a R ih =>
    intro hb
    simp only [List.map_cons, List.sum_cons]
    rw [if_neg (fun h => hb (by rw [h]; exact List.mem_cons_self a R)),
      ih (fun h => hb (List.mem_cons_of_mem a h))]
    ring

/-- An indicator sum over a duplicate-free list containing the tag once is
the indicated value. -/
theorem sum_indicator (v : ℚ) (b : String) :
    ∀ R : List String, R.Nodup → b ∈ R →
      (R.map (fun r => if b = r then v else 0)).sum = v := by
  intro R
  induction R with
  | nil => intro _ h; cases h
  | cons a R ih =>
    intro hnd hmem
    simp only [List.map_cons, List.sum_cons]
    by_cases h : b = a
    · have hbR : b ∉ R := by
        rw [h]
        exact (List.nodup_cons.mp hnd).1
      rw [if_pos h, sum_indicator_not_mem v b R hbR]
      ring
    · rw [if_neg h, ih (List.nodup_cons.mp hnd).2
        ((List.mem_cons.mp hmem).resolve_left h)]
      ring

/-- Partitioning the revenue sum by any key: summing the revenue of the rows
with key `r`, over a duplicate-free list of keys covering the table, gives
the table's total revenue. -/
theorem revenue_partition (k : SalesRow → String) (t : List SalesRow) :
    ∀ R : List String, R.Nodup → (∀ x ∈ t, k x ∈ R) →
      (R.map (fun r => totalRevenue (t.filter (fun x => k x == r)))).sum =
        totalRevenue t := by
  induction t with
  | nil =>
    intro R _ _
    simp [totalRevenue]
  | cons a t ih =>
    intro R hnd hcov
    have hcov2 : ∀ x ∈ t, k x ∈ R := fun x hx => hcov x (List.mem_cons_of_mem a hx)
    have hka : k a ∈ R := hcov a (List.mem_cons_self a t)
    have hstep : ∀ r : String,
        totalRevenue ((a :: t).filter (fun x => k x == r)) =
          (if k a = r then a.revenue else 0) +
            totalRevenue (t.filter (fun x => k x == r)) := by
      intro r
      by_cases h : k a = r
      · rw [List.filter_cons_of_pos (by simp [h]), if_pos h, totalRevenue_cons]
      · rw [List.filter_cons_of_neg (by simp [h]), if_neg h, zero_add]
    calc (R.map (fun r => totalRevenue ((a :: t).filter (fun x => k x == r)))).sum
        = (R.map (fun r => (if k a = r then a.revenue else 0) +
            totalRevenue (t.filter (fun x => k x == r)))).sum :=
          congrArg List.sum (List.map_congr_left (fun r _ => hstep r))
      _ = (R.map (fun r => if k a = r then a.revenue else 0)).sum +
          (R.map (fun r => totalRevenue (t.filter (fun x => k x == r)))).sum :=
          sum_map_add_distrib R _ _
      _ = a.revenue + totalRevenue t := by
          rw [sum_indicator a.revenue (k a) R hnd hka, ih R hnd hcov2]
      _ = totalRevenue (a :: t) := (totalRevenue_cons a t).symm

/-- C8: the pivot table's total over all region×product cells (missing
cells 0) equals the Dashboard's `Total Revenue` KPI, exactly. -/
theorem c8_pivot_total (data : List SalesRow) :
    pivotTotal data = (summarize data).1 := by
  show pivotTotal data = totalRevenue data
  unfold pivotTotal
  have hcell : ∀ r p, pivotCell data r p =
      totalRevenue ((data.filter (fun x => x.region == r)).filter
        (fun x => x.product == p)) := by
    intro r p
    unfold pivotCell
    rw [List.filter_filter]
    exact congrArg totalRevenue
      (List.filter_congr (fun x _ => by rw [Bool.and_comm]))
  have hinner : ∀ r ∈ uniqueRegions data,
      ((uniqueProducts data).map (fun p => pivotCell data r p)).sum =
        totalRevenue (data.filter (fun x => x.region == r)) := by
    intro r _
    rw [List.map_congr_left (fun p _ => hcell r p)]
    exact revenue_partition (fun x => x.product)
      (data.filter (fun x => x.region == r)) (uniqueProducts data)
      (List.nodup_dedup _)
      (fun x hx => List.mem_dedup.mpr
        (List.mem_map.mpr ⟨x, List.mem_of_mem_filter hx, rfl⟩))
  rw [List.map_congr_left hinner]
  exact revenue_partition (fun x => x.region) data (uniqueRegions data)
    (List.nodup_dedup _)
    (fun x hx => List.mem_dedup.mpr (List.mem_map.mpr ⟨x, hx, rfl⟩))

/-- C7: with a concrete region `R` (not `All`), a row is in the Dashboard's
filtered table exactly when it is in the data, its date lies in the
inclusive date range, its region equals `R` exactly, and its product matches
the product filter; hence no row of another region survives, and the KPI
`summarize` of the filtered table aggregates only rows with region `R`
(re-filtering by region `R` changes nothing). -/
theorem c7_region_filter (startDate endDate : Int) (R P : String)
    (data : List SalesRow) (hR : R ≠ "All") :
    (∀ x ∈ dashboardFilter startDate endDate R P data, x.region = R) ∧
    (∀ x, x ∈ dashboardFilter startDate endDate R P data ↔
      (x ∈ data ∧ startDate ≤ x.date ∧ x.date ≤ endDate ∧ x.region = R ∧
        (P = "All" ∨ x.product = P))) ∧
    summarize (dashboardFilter startDate endDate R P data) =
      summarize ((dashboardFilter startDate endDate R P data).filter
        (fun x => x.region == R)) := by
  have hRb : (R != "All") = true := bne_iff_ne.mpr hR
  have hmem : ∀ x, x ∈ dashboardFilter startDate endDate R P data ↔
      (x ∈ data ∧ startDate ≤ x.date ∧ x.date ≤ endDate ∧ x.region = R ∧
        (P = "All" ∨ x.product = P)) := by
    intro x
    by_cases hP : P = "All"
    · have hPb : (P != "All") = false := by
        rw [hP]
        rfl
      simp only [dashboardFilter, hRb, hPb, if_true, if_false, Bool.false_eq_true,
        List.mem_filter, Bool.and_eq_true, decide_eq_true_eq, beq_iff_eq]
      constructor
      · rintro ⟨⟨hx, hd1, hd2⟩, hr⟩
        exact ⟨hx, hd1, hd2, hr, Or.inl hP⟩
      · rintro ⟨hx, hd1, hd2, hr, _⟩
        exact ⟨⟨hx, hd1, hd2⟩, hr⟩
    · have hPb : (P != "All") = true := bne_iff_ne.mpr hP
      simp only [dashboardFilter, hRb, hPb, if_true, List.mem_filter,
        Bool.and_eq_true, decide_eq_true_eq, beq_iff_eq]
      constructor
      · rintro ⟨⟨⟨hx, hd1, hd2⟩, hr⟩, hp⟩
        exact ⟨hx, hd1, hd2, hr, Or.inr hp⟩
      · rintro ⟨hx, hd1, hd2, hr, hp⟩
        exact ⟨⟨⟨hx, hd1, hd2⟩, hr⟩, hp.resolve_left hP⟩
  have honly : ∀ x ∈ dashboardFilter startDate endDate R P data, x.region = R :=
    fun x hx => ((hmem x).mp hx).2.2.2.1
  refine ⟨honly, hmem, ?_⟩
  have hid : (dashboardFilter startDate endDate R P data).filter
      (fun x => x.region == R) = dashboardFilter startDate endDate R P data :=
    List.filter_eq_self.mpr (fun a ha => beq_iff_eq.mpr (honly a ha))
  rw [hid]

/-- A sample row in region East. -/
def rowEast : SalesRow := ⟨0, "Widget A", "East", 10, 100⟩

/-- A sample row in region West. -/
def rowWest : SalesRow := ⟨3, "Widget B", "West", 5, 50⟩

/-- Witness for C7: with region filter `East`, the surviving row has region
`East`, and re-filtering the filtered table by `East` changes nothing. -/
theorem c7_region_filter_witness :
    rowEast.region = "East" ∧
    summarize (dashboardFilter 0 10 "East" "All" [rowEast, rowWest]) =
      summarize ((dashboardFilter 0 10 "East" "All" [rowEast, rowWest]).filter
        (fun x => x.region == "East")) :=
  ⟨(c7_region_filter 0 10 "East" "All" [rowEast, rowWest] (by decide)).1
      rowEast (by decide),
   (c7_region_filter 0 10 "East" "All" [rowEast, rowWest] (by decide)).2.2⟩
